import Mathlib

/-!
Verification of the icybox129/chatbot repository: a shallow embedding of
the Markdown preprocessing pipeline (`preprocessing/preprocessing.py`),
the query pipeline (`backend/query_data.py`, `backend/general_kb_query.py`)
and the Flask request handler (`app.py`), together with theorems settling
the specification claims.

Text is embedded as `List Char` (Python `str`).  Opaque third-party
collaborators (the tiktoken encoder, the OpenAI embedding/chat models, the
Chroma vector index, the YAML parser) are parameters of the embedded
functions; everything written in the repository itself is translated
directly from the source.
-/

/-- Characters of a string literal (Python text values are `List Char`). -/
def str (s : String) : List Char := s.data

/-- Python `str.isspace` set used by `str.strip()`:
space, tab, newline, carriage return, vertical tab, form feed. -/
def isPySpace (c : Char) : Bool :=
  c = ' ' || c = '\t' || c = '\n' || c = '\r' || c = '\x0b' || c = '\x0c'

/-- Python `s.strip()`: drop whitespace from both ends. -/
def pyStrip (cs : List Char) : List Char :=
  ((cs.dropWhile isPySpace).reverse.dropWhile isPySpace).reverse

/-- Python `s.strip("# ")` used for the heading metadata value:
drop `#` and space characters from both ends. -/
def stripHashSpace (cs : List Char) : List Char :=
  let isHS : Char → Bool := fun c => c = '#' || c = ' '
  ((cs.dropWhile isHS).reverse.dropWhile isHS).reverse

/-- `leadsWith needle hay` is Python `hay.startswith(needle)`. -/
def leadsWith : List Char → List Char → Bool
  | [], _ => true
  | _ :: _, [] => false
  | a :: as, b :: bs => a = b && leadsWith as bs

/-- `scanSub needle hay` is Python `hay.find(needle)`: index of the first
occurrence of `needle` in `hay`, if any. -/
def scanSub (needle : List Char) : List Char → Option Nat
  | [] => if needle = [] then some 0 else none
  | c :: cs =>
    if leadsWith needle (c :: cs) then some 0
    else (scanSub needle cs).map (· + 1)

-- ─────────────────────────────────────────────────────────────────────────
-- backend/query_data.py : conversation messages and truncate_history
-- ─────────────────────────────────────────────────────────────────────────

/-- LangChain chat messages used by `backend/query_data.py`
(`SystemMessage` / `HumanMessage` / `AIMessage`). -/
inductive ChatMsg
  | system : List Char → ChatMsg
  | human : List Char → ChatMsg
  | ai : List Char → ChatMsg
deriving DecidableEq, Repr

/-- The `.content` attribute of a chat message. -/
def ChatMsg.content : ChatMsg → List Char
  | .system c => c
  | .human c => c
  | .ai c => c

/-- Loop of `truncate_history` over `reversed(messages)`:
`total_tokens += len(encoding.encode(message.content)) + 4`, break when
`total_tokens > max_tokens`, else `truncated_messages.insert(0, message)`.
The argument list here is the reversed message list, so the result is the
kept messages newest-first; `tiktoken.encoding_for_model` is the opaque
parameter `encLen` giving `len(encoding.encode(text))`. -/
def truncAux (encLen : List Char → Nat) (maxTokens : Nat) :
    List ChatMsg → Nat → List ChatMsg
  | [], _ => []
  | m :: rest, total =>
    let tokens := encLen m.content + 4
    if maxTokens < total + tokens then []
    else m :: truncAux encLen maxTokens rest (total + tokens)

/-- `truncate_history(messages, max_tokens, model_name, reserved_tokens)`
from `backend/query_data.py` (the call sites use
`max_tokens = 3000`, `reserved_tokens = 500`). -/
def truncate_history (encLen : List Char → Nat) (messages : List ChatMsg)
    (maxTokens reservedTokens : Nat) : List ChatMsg :=
  (truncAux encLen maxTokens messages.reverse reservedTokens).reverse

-- ─────────────────────────────────────────────────────────────────────────
-- Shared data model: LangChain documents and metadata mappings
-- ─────────────────────────────────────────────────────────────────────────

/-- Document metadata: a string-keyed mapping with text values
(Python `dict`; first matching key wins on lookup). -/
abbrev Metadata := List (String × List Char)

/-- `metadata.get(key, '')`: value of the first matching key, `''` if absent. -/
def mdGet : Metadata → String → List Char
  | [], _ => []
  | (k, v) :: rest, key => if k = key then v else mdGet rest key

/-- A LangChain `Document`: `page_content` plus `metadata`. -/
structure Document where
  page_content : List Char
  metadata : Metadata
deriving DecidableEq, Repr

/-- `get_source_from_metadata` from `backend/query_data.py`:
strip `page_title` and `subcategory`, combine the non-empty ones,
or fall back to the literal `"unknown source"`. -/
def get_source_from_metadata (metadata : Metadata) : List Char :=
  let page_title := pyStrip (mdGet metadata "page_title")
  let subcategory := pyStrip (mdGet metadata "subcategory")
  if page_title ≠ [] ∧ subcategory ≠ [] then
    subcategory ++ str " - " ++ page_title
  else if page_title ≠ [] then page_title
  else if subcategory ≠ [] then subcategory
  else str "unknown source"

/-- `get_source_from_metadata` from `backend/general_kb_query.py`:
no stripping, and the fallback literal is `"Unknown source"`. -/
def gkb_get_source_from_metadata (metadata : Metadata) : List Char :=
  let page_title := mdGet metadata "page_title"
  let subcategory := mdGet metadata "subcategory"
  if page_title ≠ [] ∧ subcategory ≠ [] then
    subcategory ++ str " - " ++ page_title
  else if page_title ≠ [] then page_title
  else if subcategory ≠ [] then subcategory
  else str "Unknown source"

-- ─────────────────────────────────────────────────────────────────────────
-- backend/query_data.py : context assembly over retrieval results
-- ─────────────────────────────────────────────────────────────────────────

/-- The chunk separator `"\n\n---\n\n"` appended after each kept chunk. -/
def sepStr : List Char := str "\n\n---\n\n"

/-- Retrieval scores are embedded as rationals (`similarity_search_with_relevance_scores`
returns floats; only order against the literal threshold `0.7` is used). -/
abbrev Score := ℚ

/-- The `context_text` accumulator of the retrieval loop in
`backend/query_data.py` `main`:
`if score >= 0.7: context_text += document.page_content + "\n\n---\n\n"`. -/
def buildContext (acc : List Char) : List (Document × Score) → List Char
  | [] => acc
  | dr :: rest =>
    if mkRat 7 10 ≤ dr.2 then
      buildContext (acc ++ dr.1.page_content ++ sepStr) rest
    else buildContext acc rest

/-- `set.add` for source labels: membership-conditional insert (iteration
order of the intermediate set is irrelevant because the code sorts it). -/
def addSource (l : List (List Char)) (x : List Char) : List (List Char) :=
  if x ∈ l then l else l ++ [x]

/-- The `sources` accumulator of the same retrieval loop:
`if score >= 0.7: sources.add(get_source_from_metadata(document.metadata))`. -/
def buildSources (acc : List (List Char)) : List (Document × Score) → List (List Char)
  | [] => acc
  | dr :: rest =>
    if mkRat 7 10 ≤ dr.2 then
      buildSources (addSource acc (get_source_from_metadata dr.1.metadata)) rest
    else buildSources acc rest

/-- Python string `<` : lexicographic comparison by code point. -/
def ltStr : List Char → List Char → Bool
  | [], [] => false
  | [], _ :: _ => true
  | _ :: _, [] => false
  | a :: as, b :: bs => if a < b then true else if b < a then false else ltStr as bs

/-- Insert into a sorted list (for Python `sorted`). -/
def insertSorted (x : List Char) : List (List Char) → List (List Char)
  | [] => [x]
  | y :: ys => if ltStr x y then x :: y :: ys else y :: insertSorted x ys

/-- Python `sorted(...)` on a list of strings. -/
def pySorted : List (List Char) → List (List Char)
  | [] => []
  | x :: xs => insertSorted x (pySorted xs)

/-- `context_text` built by `main` from the retrieval results. -/
def contextOf (results : List (Document × Score)) : List Char :=
  buildContext [] results

/-- `sorted(sources)` built by `main` from the retrieval results. -/
def sourcesOf (results : List (Document × Score)) : List (List Char) :=
  pySorted (buildSources [] results)

-- ─────────────────────────────────────────────────────────────────────────
-- backend/query_data.py : the main query pipeline
-- ─────────────────────────────────────────────────────────────────────────

/-- A stored conversation turn: the `{"role": ..., "content": ...}` dicts
kept in the Flask session. -/
structure Turn where
  role : String
  content : List Char
deriving DecidableEq, Repr

/-- The result dict `{"response": ..., "sources": ...}` returned by `main`. -/
structure QueryResponse where
  response : List Char
  sources : List (List Char)
deriving DecidableEq, Repr

/-- Head of the system-message f-string in `main`, up to `{context_text}`. -/
def systemPromptPre : List Char :=
  str "\n            You are a specialized assistant that helps developers create and troubleshoot Terraform configuration files.\n\n            Instructions:\n            - Use **only** the following provided context to answer the user\x27s question.\n            - If the answer is not contained within the context, politely inform the user that you cannot assist.\n            - Provide clear and concise explanations in markdown format.\n            - Use bullet points for lists and triple backticks for code blocks with \x27hcl\x27 as the language.\n            - Reference the sources in your response when applicable.\n\n            "

/-- Content of the `SystemMessage` built by `main`. -/
def systemMessageContent (contextText : List Char) : List Char :=
  systemPromptPre ++ contextText ++ str "\n        "

/-- The history conversion loop of `main`: `'user'` turns become
`HumanMessage`, `'assistant'` turns become `AIMessage`, others are skipped. -/
def historyToMessages (history : List Turn) : List ChatMsg :=
  history.filterMap fun t =>
    if t.role = "user" then some (ChatMsg.human t.content)
    else if t.role = "assistant" then some (ChatMsg.ai t.content)
    else none

/-- Early-return response when the Chroma directory is missing. -/
def kbMissingResponse : QueryResponse :=
  ⟨str "Error: The knowledge base is missing. Please contact support.", []⟩

/-- The catch-all response of `main`'s `except` block. -/
def genericErrorResponse : QueryResponse :=
  ⟨str "An error occurred while processing your request.", []⟩

/-- `main(query_text, history)` from `backend/query_data.py`.
The opaque collaborators appear as parameters: `search` is the outcome of
connecting to Chroma and running `similarity_search_with_relevance_scores`
(embedding + vector index), `invoke` is `ChatOpenAI.invoke`, `encLen` is the
tiktoken encoder used by `truncate_history`, and `chromaExists` is the
`os.path.exists(CHROMA_PATH)` check.  A `.error` value models an exception
raised by a collaborator; the `match` at the end is the `try`/`except`. -/
def queryMain {E : Type} (encLen : List Char → Nat) (chromaExists : Bool)
    (search : Except E (List (Document × Score)))
    (invoke : List ChatMsg → Except E (List Char))
    (history : List Turn) : QueryResponse :=
  if chromaExists = false then kbMissingResponse
  else
    match (do
        let results ← search
        let contextText := contextOf results
        let sources := sourcesOf results
        let messages :=
          ChatMsg.system (systemMessageContent contextText) :: historyToMessages history
        let messages := truncate_history encLen messages 3000 500
        let responseText ← invoke messages
        pure (QueryResponse.mk (pyStrip responseText) sources) : Except E QueryResponse) with
    | .ok r => r
    | .error _ => genericErrorResponse

-- ─────────────────────────────────────────────────────────────────────────
-- app.py : the /api/query request handler
-- ─────────────────────────────────────────────────────────────────────────

/-- Outcome of one `/api/query` request: the 400 on empty input, an
uncaught exception from the query function (which would surface as a 500
before the session write), or a normal JSON response. -/
inductive HandleOutcome (E : Type)
  | badRequest
  | serverError (e : E)
  | ok (r : QueryResponse)
deriving DecidableEq

/-- `handle_query` from `app.py`, as a transition on the stored session
history: validates the query, appends the user turn to the local history
list, runs the query function `process` (which is `backend.query_data.main`),
appends the assistant reply, and only then writes the history back to the
session.  A `.error` from `process` models an exception propagating out of
the query function, in which case the session write is never reached. -/
def handle_query {E : Type} (process : List Char → List Turn → Except E QueryResponse)
    (stored : List Turn) (rawQuery : List Char) : HandleOutcome E × List Turn :=
  let query_text := pyStrip rawQuery
  if query_text = [] then (HandleOutcome.badRequest, stored)
  else
    let history := stored ++ [⟨"user", query_text⟩]
    match process query_text history with
    | .error e => (HandleOutcome.serverError e, stored)
    | .ok rd => (HandleOutcome.ok rd, history ++ [⟨"assistant", rd.response⟩])

-- ─────────────────────────────────────────────────────────────────────────
-- backend/general_kb_query.py
-- ─────────────────────────────────────────────────────────────────────────

/-- Python `sep.join(parts)`: parts interleaved with `sep`, no trailing
separator.  Also serves as the spec-side meaning of "joining with a
separator". -/
def joinSep (sep : List Char) : List (List Char) → List Char
  | [] => []
  | [x] => x
  | x :: y :: rest => x ++ sep ++ joinSep sep (y :: rest)

/-- The `context_text` accumulator of `general_kb_query.main` over the
already-filtered `relevant_results`:
`context_text += document.page_content + "\n\n---\n\n"`. -/
def gkbContext (acc : List Char) : List (Document × Score) → List Char
  | [] => acc
  | dr :: rest => gkbContext (acc ++ dr.1.page_content ++ sepStr) rest

/-- The `sources` list accumulator of `general_kb_query.main`:
`if source not in sources: sources.append(source)` (first-seen order). -/
def gkbSources (acc : List (List Char)) : List (Document × Score) → List (List Char)
  | [] => acc
  | dr :: rest =>
    gkbSources (addSource acc (gkb_get_source_from_metadata dr.1.metadata)) rest

/-- `PROMPT_TEMPLATE.format(context=..., question=...)` from
`backend/general_kb_query.py`. -/
def gkbPrompt (context question : List Char) : List Char :=
  str "\nYou are a specialized assistant that helps developers create and troubleshoot Terraform configuration files.\nUse only the following context to answer the question:\n\n"
    ++ context
    ++ str "\n\nAnswer the question based on the above context: "
    ++ question ++ str "\n"

/-- The response-formatting logic of `main` from
`backend/general_kb_query.py` (the source hardcodes `query_text`; it is a
parameter here, as is the chat-model collaborator `invoke`).  Returns the
`formatted_response` string that the script prints, or the collaborator's
error. -/
def gkbMain {E : Type} (results : List (Document × Score))
    (invoke : List Char → Except E (List Char)) (query_text : List Char) :
    Except E (List Char) :=
  let relevant := results.filter fun dr => decide (mkRat 7 10 ≤ dr.2)
  if relevant.isEmpty = false then
    let context_text := gkbContext [] relevant
    let sources := gkbSources [] relevant
    match invoke (gkbPrompt context_text query_text) with
    | .ok r =>
      .ok (str "Response: " ++ r ++ str "\n\nSources:\n"
        ++ joinSep (str "\n") (sources.map fun s => str "- " ++ s))
    | .error e => .error e
  else
    match invoke query_text with
    | .ok r => .ok (str "Response: " ++ r ++ str "\n\nSources: General knowledge")
    | .error e => .error e

-- ─────────────────────────────────────────────────────────────────────────
-- preprocessing/preprocessing.py : MarkdownSplitter
-- ─────────────────────────────────────────────────────────────────────────

/-- `re` `.`-semantics: the rest of the current line, and the remainder
starting at the newline (if any). -/
def takeLine : List Char → List Char × List Char
  | [] => ([], [])
  | c :: cs =>
    if c = '\n' then ([], c :: cs)
    else
      let p := takeLine cs
      (c :: p.1, p.2)

/-- One attempted match of the heading pattern `\n#{1,6} .*` at the head of
the text: a newline, one to six `#`, a space, then the rest of the line.
(The greedy `#{1,6}` can only succeed when the whole `#`-run has length
1..6 and is followed by a space, since backtracking re-reads `#`
characters where the pattern wants the space.)  Returns the matched text
and the remainder. -/
def matchHeading : List Char → Option (List Char × List Char)
  | '\n' :: cs =>
    let hashes := cs.takeWhile fun c => c = '#'
    let afterHashes := cs.drop hashes.length
    if 1 ≤ hashes.length ∧ hashes.length ≤ 6 ∧ afterHashes.take 1 = [' '] then
      let line := takeLine (afterHashes.drop 1)
      some ('\n' :: hashes ++ ' ' :: line.1, line.2)
    else none
  | _ => none

/-- `re.split(r"(\n#{1,6} .*)", content)` with its capture group: the
pieces of text between matches interleaved with the matches themselves.
Fuel-driven left-to-right scan; `acc` is the (reversed) text accumulated
since the last match.  The fuel is always at least the length of the
remaining text, so the `0` case is unreachable from `headingSections`. -/
def headingSplitGo : Nat → List Char → List Char → List (List Char)
  | 0, acc, cs => [acc.reverse ++ cs]
  | fuel + 1, acc, cs =>
    match cs with
    | [] => [acc.reverse]
    | c :: rest =>
      match matchHeading cs with
      | some (m, after) => acc.reverse :: m :: headingSplitGo fuel [] after
      | none => headingSplitGo fuel (c :: acc) rest

/-- The `sections` list of `MarkdownSplitter.split_documents`. -/
def headingSections (content : List Char) : List (List Char) :=
  headingSplitGo content.length [] content

/-- The loop `for i in range(1, len(sections), 2)` of `split_documents`:
pairs each heading match `sections[i]` with the following section text
`sections[i + 1]` (or `""` when there is none). -/
def pairUp : List (List Char) → List (List Char × List Char)
  | [] => []
  | [h] => [(h, [])]
  | h :: c :: rest => (h, c) :: pairUp rest

/-- Heading/content pairs of a section list (drops `sections[0]`, the text
before the first heading match). -/
def sectionPairs : List (List Char) → List (List Char × List Char)
  | [] => []
  | _ :: rest => pairUp rest

/-- A triple-backtick fence. -/
def fence : List Char := str "\x60\x60\x60"

/-- One attempted match of the fenced-block alternative
` ```[\w]*[\s\S]*?``` ` at the head of the text: an opening fence, then
everything up to and including the earliest following fence.  (The greedy
`[\w]*` never affects the result: word characters are never backticks, so
the earliest closing fence after the opening one is the same wherever the
lazy part starts.)  Returns the matched text and the remainder. -/
def matchTriple : List Char → Option (List Char × List Char)
  | '\x60' :: '\x60' :: '\x60' :: rest =>
    match scanSub fence rest with
    | some j => some (fence ++ rest.take (j + 3), rest.drop (j + 3))
    | none => none
  | _ => none

/-- One attempted match of the inline-code alternative `` `[^`\n]+` `` at
the head of the text: a backtick, one or more characters that are neither
backtick nor newline, then a backtick. -/
def matchInline : List Char → Option (List Char × List Char)
  | '\x60' :: rest =>
    let run := rest.takeWhile fun c => !(c = '\x60' || c = '\n')
    if run.length = 0 then none
    else if (rest.drop run.length).take 1 = ['\x60'] then
      some ('\x60' :: run ++ ['\x60'], rest.drop (run.length + 1))
    else none
  | _ => none

/-- One attempted match of the code-block pattern
`` (```[\w]*[\s\S]*?```|`[^`\n]+`) `` at the head of the text; the fenced
alternative is tried first, as in the regex. -/
def matchCode (cs : List Char) : Option (List Char × List Char) :=
  match matchTriple cs with
  | some r => some r
  | none => matchInline cs

/-- `re.split(code_block_pattern, text)` with its capture group, as in
`split_by_code_blocks`: same fuel-driven scan as `headingSplitGo`. -/
def codeSplitGo : Nat → List Char → List Char → List (List Char)
  | 0, acc, cs => [acc.reverse ++ cs]
  | fuel + 1, acc, cs =>
    match cs with
    | [] => [acc.reverse]
    | c :: rest =>
      match matchCode cs with
      | some (m, after) => acc.reverse :: m :: codeSplitGo fuel [] after
      | none => codeSplitGo fuel (c :: acc) rest

/-- The `parts` list of `split_by_code_blocks`. -/
def codeSplit (text : List Char) : List (List Char) :=
  codeSplitGo text.length [] text

/-- The `for part in parts` loop of `split_by_code_blocks`: code-block
parts are flushed as their own chunks; other parts accumulate in
`current_chunk`, which is flushed (stripped) once its length exceeds the
chunk size, and once more at the end if non-empty. -/
def chunkParts (chunkSize : Nat) :
    List (List Char) → List (List Char) → List Char → List (List Char)
  | [], chunks, current => if current ≠ [] then chunks ++ [pyStrip current] else chunks
  | part :: rest, chunks, current =>
    if leadsWith fence part then
      let chunks := if current ≠ [] then chunks ++ [pyStrip current] else chunks
      chunkParts chunkSize rest (chunks ++ [pyStrip part]) []
    else
      let current := current ++ part
      if chunkSize < current.length then
        chunkParts chunkSize rest (chunks ++ [pyStrip current]) []
      else chunkParts chunkSize rest chunks current

/-- `MarkdownSplitter.split_by_code_blocks(text)`; `chunkSize` is the
splitter's `_chunk_size` (500 at the call site in `split_text`). -/
def split_by_code_blocks (chunkSize : Nat) (text : List Char) : List (List Char) :=
  chunkParts chunkSize (codeSplit text) [] []

/-- `chunk_metadata = {**doc.metadata}; chunk_metadata["heading"] = v`. -/
def mdSet (md : Metadata) (key : String) (v : List Char) : Metadata :=
  (md.filter fun kv => kv.1 != key) ++ [(key, v)]

/-- `MarkdownSplitter.split_documents(documents)`: split each document on
heading matches, split each heading-led section around code blocks, and
attach the stripped heading as metadata. -/
def split_documents (chunkSize : Nat) (documents : List Document) : List Document :=
  documents.flatMap fun doc =>
    let sections := headingSections doc.page_content
    (sectionPairs sections).flatMap fun hc =>
      let heading := pyStrip hc.1
      let section_chunks := split_by_code_blocks chunkSize (heading ++ '\n' :: hc.2)
      section_chunks.map fun chunk =>
        Document.mk chunk (mdSet doc.metadata "heading" (stripHashSpace heading))

-- ─────────────────────────────────────────────────────────────────────────
-- preprocessing/preprocessing.py : extract_metadata
-- ─────────────────────────────────────────────────────────────────────────

/-- `extract_metadata(content)` from `preprocessing/preprocessing.py`.
The `parse` parameter models the frontmatter-parsing step between the
delimiters (the `re.findall` key-value extraction, the literal-block
reformatting, and the external `yaml.safe_load` call); an `.error` models
a parse exception.  The delimiter logic is the source's:
`content.startswith("---")`, `content.find("---", 3)`, slicing and
stripping. -/
def extract_metadata {E : Type} (parse : List Char → Except E Metadata)
    (content : List Char) : Except E (Metadata × List Char) :=
  if leadsWith (str "---") content then
    match scanSub (str "---") (content.drop 3) with
    | some j =>
      let frontmatter := pyStrip ((content.drop 3).take j)
      match parse frontmatter with
      | .ok metadata => .ok (metadata, pyStrip (content.drop (j + 6)))
      | .error e => .error e
    | none => .ok ([], content)
  else .ok ([], content)

-- ─────────────────────────────────────────────────────────────────────────
-- Measures used by the claims
-- ─────────────────────────────────────────────────────────────────────────

/-- Number of (non-overlapping, leftmost) triple-backtick fence sequences
in a text. -/
def countFences : List Char → Nat
  | '\x60' :: '\x60' :: '\x60' :: rest => countFences rest + 1
  | _ :: rest => countFences rest
  | [] => 0

/-- Whether the heading pattern `\n#{1,6} .*` matches anywhere in the
text (i.e. whether `re.split` finds any heading). -/
def hasHeadingMatch : List Char → Bool
  | [] => false
  | c :: cs => (matchHeading (c :: cs)).isSome || hasHeadingMatch cs

/-- The relevance predicate of the retrieval loop, as a Boolean. -/
def keepScore (dr : Document × Score) : Bool := decide (mkRat 7 10 ≤ dr.2)

/-- The source-label rule as worded by the specification (for comparison
with the implementations): `"{subcategory} - {page_title}"` when both are
non-empty after trimming, the non-empty one when only one is, and the
literal `"unknown source"` when neither is. -/
def sourceLabelSpec (metadata : Metadata) : List Char :=
  match pyStrip (mdGet metadata "page_title"), pyStrip (mdGet metadata "subcategory") with
  | [], [] => str "unknown source"
  | [], sc => sc
  | pt, [] => pt
  | pt, sc => sc ++ str " - " ++ pt

-- scratch checks
example :
    headingSections (str "\n# H\nx\n\x60\x60\x60\n# evil\ny\n\x60\x60\x60\n") =
      [[], str "\n# H", str "\nx\n\x60\x60\x60", str "\n# evil",
       str "\ny\n\x60\x60\x60\n"] := by decide
example : headingSections (str "# A\n\nfoo") = [str "# A\n\nfoo"] := by decide
example : headingSections (str "\n####### seven\nx") = [str "\n####### seven\nx"] := by
  decide
example : headingSections (str "a\n## B") = [str "a", str "\n## B", []] := by decide
example : codeSplit (str "# H\n\nx\n\x60\x60\x60") = [str "# H\n\nx\n\x60\x60\x60"] := by
  decide
example :
    codeSplit (str "a \x60b\x60 \x60\x60\x60py\ncode\n\x60\x60\x60 c") =
      [str "a ", str "\x60b\x60", str " ", str "\x60\x60\x60py\ncode\n\x60\x60\x60",
       str " c"] := by decide
example :
    codeSplit (str "\x60\x60\x60\x60\x60x\x60\x60\x60") =
      [[], str "\x60\x60\x60\x60\x60x\x60\x60\x60", []] := by decide
example :
    codeSplit (str "\x60a\x60\x60\x60 b \x60\x60\x60c\x60") =
      [[], str "\x60a\x60", str "\x60", str "\x60 b \x60", str "\x60",
       str "\x60c\x60", []] := by decide
example :
    split_documents 500
      [⟨str "# Heading\n\nContent here.\n\n## Subheading\n\nMore content here.\n\n\x60\x60\x60python\nprint(\x27Hello, World!\x27)\n\x60\x60\x60", []⟩] =
      [⟨str "## Subheading\n\n\nMore content here.", [("heading", str "Subheading")]⟩,
       ⟨str "\x60\x60\x60python\nprint(\x27Hello, World!\x27)\n\x60\x60\x60",
        [("heading", str "Subheading")]⟩] := by decide
example : pyStrip (str "  a b \n") = str "a b" := by decide

-- ─────────────────────────────────────────────────────────────────────────
-- Helper lemmas: truncate_history
-- ─────────────────────────────────────────────────────────────────────────

/-- The kept (newest-first) messages are an initial segment of the
reversed input. -/
theorem truncAux_initial (encLen : List Char → Nat) (maxT : Nat) :
    ∀ (xs : List ChatMsg) (total : Nat),
      ∃ t, truncAux encLen maxT xs total ++ t = xs := by
  intro xs
  induction xs with
  | nil => intro total; exact ⟨[], rfl⟩
  | cons m rest ih =>
    intro total
    unfold truncAux
    by_cases h : maxT < total + (encLen m.content + 4)
    · simp only [h, if_true]
      exact ⟨m :: rest, rfl⟩
    · simp only [h, if_false]
      obtain ⟨t, ht⟩ := ih (total + (encLen m.content + 4))
      exact ⟨t, by simp [ht]⟩

/-- A larger budget keeps at least as many messages. -/
theorem truncAux_length_mono (encLen : List Char → Nat) {maxT maxT' : Nat}
    (h : maxT ≤ maxT') :
    ∀ (xs : List ChatMsg) (total : Nat),
      (truncAux encLen maxT xs total).length ≤
        (truncAux encLen maxT' xs total).length := by
  intro xs
  induction xs with
  | nil => intro total; simp [truncAux]
  | cons m rest ih =>
    intro total
    unfold truncAux
    by_cases h' : maxT' < total + (encLen m.content + 4)
    · have h'' : maxT < total + (encLen m.content + 4) := lt_of_le_of_lt h h'
      simp [h', h'']
    · by_cases h'' : maxT < total + (encLen m.content + 4)
      · simp [h', h'']
      · simp only [h', h'', if_false, List.length_cons]
        exact Nat.succ_le_succ (ih (total + (encLen m.content + 4)))

/-- C2 (claim): the truncated history is a contiguous suffix of the input
(in particular it is never longer than the input and never reordered), and
a larger `max_tokens` never keeps fewer messages. -/
theorem truncate_history_suffix_mono (encLen : List Char → Nat)
    (messages : List ChatMsg) (maxT maxT' reserved : Nat) (h : maxT ≤ maxT') :
    truncate_history encLen messages maxT reserved <:+ messages ∧
    (truncate_history encLen messages maxT reserved).length ≤ messages.length ∧
    (truncate_history encLen messages maxT reserved).length ≤
      (truncate_history encLen messages maxT' reserved).length := by
  refine ⟨?_, ?_, ?_⟩
  · obtain ⟨t, ht⟩ := truncAux_initial encLen maxT messages.reverse reserved
    refine ⟨t.reverse, ?_⟩
    have := congrArg List.reverse ht
    simpa using this
  · obtain ⟨t, ht⟩ := truncAux_initial encLen maxT messages.reverse reserved
    have := congrArg List.length ht
    simp only [List.length_append, List.length_reverse] at this
    simp only [truncate_history, List.length_reverse]
    omega
  · simp only [truncate_history, List.length_reverse]
    exact truncAux_length_mono encLen h messages.reverse reserved

/-- Witness for C2 at a concrete input. -/
theorem truncate_history_suffix_mono_witness :
    (3 : Nat) ≤ 20 ∧
    (truncate_history (fun c => c.length) [.human (str "abc"), .ai (str "x")] 3 0
        <:+ [.human (str "abc"), .ai (str "x")] ∧
     (truncate_history (fun c => c.length) [.human (str "abc"), .ai (str "x")] 3 0).length ≤
       ([ChatMsg.human (str "abc"), ChatMsg.ai (str "x")]).length ∧
     (truncate_history (fun c => c.length) [.human (str "abc"), .ai (str "x")] 3 0).length ≤
       (truncate_history (fun c => c.length) [.human (str "abc"), .ai (str "x")] 20 0).length) :=
  ⟨by decide,
   truncate_history_suffix_mono (fun c => c.length)
     [.human (str "abc"), .ai (str "x")] 3 20 0 (by decide)⟩

/-- C3 (counterexample): a non-empty history whose newest message alone
exceeds the budget is truncated to nothing — the newest message is *not*
kept.  (With the call-site parameters `max_tokens = 3000`,
`reserved_tokens = 500`, a message costing 2497 + 4 tokens brings the
accumulator to 3001 > 3000 and is dropped.) -/
theorem truncate_newest_dropped :
    ([ChatMsg.human []] ≠ ([] : List ChatMsg)) ∧
    ChatMsg.human [] ∉ truncate_history (fun _ => 2497) [ChatMsg.human []] 3000 500 := by
  constructor
  · decide
  · decide

/-- C3 (amended): if the newest message itself fits the budget
(`reserved + cost ≤ max_tokens`), the truncated history does keep it; only
older messages are ever dropped. -/
theorem truncate_keeps_newest (encLen : List Char → Nat) (ms : List ChatMsg)
    (m : ChatMsg) (maxT reserved : Nat)
    (h : reserved + (encLen m.content + 4) ≤ maxT) :
    m ∈ truncate_history encLen (ms ++ [m]) maxT reserved := by
  unfold truncate_history
  rw [List.reverse_append]
  simp only [List.reverse_cons, List.reverse_nil, List.nil_append, List.cons_append]
  unfold truncAux
  have h' : ¬ maxT < reserved + (encLen m.content + 4) := by omega
  simp only [h', if_false, List.reverse_cons]
  exact List.mem_append.mpr (Or.inr (List.mem_singleton.mpr rfl))

/-- Witness for the amended C3 at a concrete input. -/
theorem truncate_keeps_newest_witness :
    500 + ((fun _ : List Char => 0) [] + 4) ≤ 3000 ∧
    ChatMsg.human [] ∈
      truncate_history (fun _ => 0) [ChatMsg.ai (str "old"), ChatMsg.human []] 3000 500 :=
  ⟨by decide,
   truncate_keeps_newest (fun _ => 0) [ChatMsg.ai (str "old")] (ChatMsg.human [])
     3000 500 (by decide)⟩

-- ─────────────────────────────────────────────────────────────────────────
-- Helper lemmas: context and source assembly
-- ─────────────────────────────────────────────────────────────────────────

theorem buildContext_acc (l : List (Document × Score)) :
    ∀ acc, buildContext acc l = acc ++ buildContext [] l := by
  induction l with
  | nil => intro acc; simp [buildContext]
  | cons dr rest ih =>
    intro acc
    by_cases h : mkRat 7 10 ≤ dr.2
    · simp only [buildContext, h, if_true]
      rw [ih (acc ++ dr.1.page_content ++ sepStr), ih ([] ++ dr.1.page_content ++ sepStr)]
      simp [List.append_assoc]
    · simp only [buildContext, h, if_false]
      exact ih acc

/-- The accumulated context is the kept contents joined with the
separator, plus one trailing separator when anything was kept. -/
theorem buildContext_join (l : List (Document × Score)) :
    buildContext [] l =
      joinSep sepStr ((l.filter keepScore).map fun dr => dr.1.page_content)
        ++ (if l.filter keepScore = [] then [] else sepStr) := by
  induction l with
  | nil => simp [buildContext, joinSep]
  | cons dr rest ih =>
    by_cases h : mkRat 7 10 ≤ dr.2
    · have hk : keepScore dr = true := by simp [keepScore, h]
      simp only [buildContext, h, if_true, List.nil_append]
      rw [buildContext_acc, ih, List.filter_cons, hk]
      simp only [if_true]
      cases hrest : rest.filter keepScore with
      | nil => simp [joinSep, hrest]
      | cons x xs => simp [joinSep, hrest, List.append_assoc]
    · have hk : keepScore dr = false := by simp [keepScore, h]
      simp only [buildContext, h, if_false]
      rw [ih, List.filter_cons, hk]
      simp

theorem mem_addSource {l : List (List Char)} {x y : List Char} :
    x ∈ addSource l y ↔ x ∈ l ∨ x = y := by
  unfold addSource
  by_cases h : y ∈ l
  · simp only [h, if_true]
    constructor
    · exact Or.inl
    · rintro (hx | rfl)
      · exact hx
      · exact h
  · simp [h]

theorem mem_buildSources (l : List (Document × Score)) :
    ∀ (acc : List (List Char)) (x : List Char),
      x ∈ buildSources acc l ↔
        x ∈ acc ∨ ∃ dr ∈ l, mkRat 7 10 ≤ dr.2 ∧
          get_source_from_metadata dr.1.metadata = x := by
  induction l with
  | nil => intro acc x; simp [buildSources]
  | cons dr rest ih =>
    intro acc x
    by_cases h : mkRat 7 10 ≤ dr.2
    · simp only [buildSources, h, if_true]
      rw [ih]
      rw [mem_addSource]
      constructor
      · rintro ((hx | rfl) | ⟨dr', hdr', hs, hl⟩)
        · exact Or.inl hx
        · exact Or.inr ⟨dr, List.mem_cons_self dr rest, h, rfl⟩
        · exact Or.inr ⟨dr', List.mem_cons_of_mem dr hdr', hs, hl⟩
      · rintro (hx | ⟨dr', hdr', hs, hl⟩)
        · exact Or.inl (Or.inl hx)
        · rcases List.mem_cons.mp hdr' with rfl | hdr''
          · exact Or.inl (Or.inr hl.symm)
          · exact Or.inr ⟨dr', hdr'', hs, hl⟩
    · simp only [buildSources, h, if_false]
      rw [ih]
      constructor
      · rintro (hx | ⟨dr', hdr', hs, hl⟩)
        · exact Or.inl hx
        · exact Or.inr ⟨dr', List.mem_cons_of_mem dr hdr', hs, hl⟩
      · rintro (hx | ⟨dr', hdr', hs, hl⟩)
        · exact Or.inl hx
        · rcases List.mem_cons.mp hdr' with rfl | hdr''
          · exact absurd hs h
          · exact Or.inr ⟨dr', hdr'', hs, hl⟩

theorem mem_insertSorted {x y : List Char} {l : List (List Char)} :
    x ∈ insertSorted y l ↔ x = y ∨ x ∈ l := by
  induction l with
  | nil => simp [insertSorted]
  | cons z zs ih =>
    unfold insertSorted
    by_cases h : ltStr y z
    · simp [h]
    · simp only [Bool.not_eq_true] at h
      simp only [h, Bool.false_eq_true, if_false, List.mem_cons, ih]
      tauto

theorem mem_pySorted {x : List Char} {l : List (List Char)} :
    x ∈ pySorted l ↔ x ∈ l := by
  induction l with
  | nil => simp [pySorted]
  | cons y ys ih => simp [pySorted, mem_insertSorted, ih]

-- ─────────────────────────────────────────────────────────────────────────
-- C4 : relevance filtering and context assembly in query_data.main
-- ─────────────────────────────────────────────────────────────────────────

/-- C4 (counterexample): the context is *not* the kept contents joined
with the separator — a single kept chunk `"A"` yields
`"A\n\n---\n\n"`, not `"A"`: the code appends the separator after every
kept chunk, so a non-empty context always carries a trailing separator. -/
theorem context_not_plain_join :
    contextOf [(⟨str "A", []⟩, mkRat 9 10)] ≠ joinSep sepStr [str "A"] := by
  decide

/-- C4 (amended): a chunk contributes to the context, and its label to
the sources, exactly when its score is at least `0.7`; the context is the
kept contents joined with `"\n\n---\n\n"` *plus a trailing separator when
non-empty*; when every score is below the threshold the context is empty
and the sources are empty; and this is returned as a normal (non-error)
response whose `response` field is the model reply. -/
theorem query_context_and_sources (results : List (Document × Score)) :
    (contextOf results =
      joinSep sepStr ((results.filter keepScore).map fun dr => dr.1.page_content)
        ++ (if results.filter keepScore = [] then [] else sepStr)) ∧
    (∀ x, x ∈ sourcesOf results ↔
        ∃ dr ∈ results, mkRat 7 10 ≤ dr.2 ∧
          get_source_from_metadata dr.1.metadata = x) ∧
    ((∀ dr ∈ results, dr.2 < mkRat 7 10) →
        contextOf results = [] ∧ sourcesOf results = []) ∧
    (∀ (E : Type) (encLen : List Char → Nat) (reply : List Char) (history : List Turn),
        queryMain (E := E) encLen true (Except.ok results)
            (fun _ => Except.ok reply) history =
          ⟨pyStrip reply, sourcesOf results⟩) := by
  refine ⟨buildContext_join results, ?_, ?_, ?_⟩
  · intro x
    rw [sourcesOf, mem_pySorted, mem_buildSources]
    simp
  · intro hall
    have hfilter : results.filter keepScore = [] := by
      rw [List.filter_eq_nil_iff]
      intro dr hdr
      simp only [keepScore, decide_eq_true_eq]
      exact not_le.mpr (hall dr hdr)
    constructor
    · rw [contextOf, buildContext_join, hfilter]
      simp [joinSep]
    · rw [List.eq_nil_iff_forall_not_mem]
      intro x hx
      rw [sourcesOf, mem_pySorted, mem_buildSources] at hx
      rcases hx with hx | ⟨dr, hdr, hs, _⟩
      · exact absurd hx (List.not_mem_nil x)
      · exact absurd hs (not_le.mpr (hall dr hdr))
  · intro E encLen reply history
    simp [queryMain, Bind.bind, Except.bind, Pure.pure, Except.pure]

/-- Witness for C4: with a single low-scoring result, the theorem's
all-below-threshold case gives empty context and empty sources. -/
theorem query_context_and_sources_witness :
    contextOf [(⟨str "A", []⟩, mkRat 1 2)] = [] ∧
    sourcesOf [(⟨str "A", []⟩, mkRat 1 2)] = [] :=
  (query_context_and_sources [(⟨str "A", []⟩, mkRat 1 2)]).2.2.1 (by decide)

-- ─────────────────────────────────────────────────────────────────────────
-- C7 : collaborator failures are caught by query_data.main
-- ─────────────────────────────────────────────────────────────────────────

/-- C7 (claim): any collaborator failure inside the query pipeline — the
embedding/index search or the chat-model call — is caught and converted
to `{"response": "An error occurred while processing your request.",
"sources": []}`; no collaborator exception reaches the caller. -/
theorem query_errors_caught {E : Type} (encLen : List Char → Nat)
    (history : List Turn) :
    (∀ (e : E) (invoke : List ChatMsg → Except E (List Char)),
        queryMain encLen true (Except.error e) invoke history =
          genericErrorResponse) ∧
    (∀ (results : List (Document × Score)) (e : E)
        (invoke : List ChatMsg → Except E (List Char)),
        (∀ msgs, invoke msgs = Except.error e) →
        queryMain encLen true (Except.ok results) invoke history =
          genericErrorResponse) := by
  constructor
  · intro e invoke
    simp [queryMain, Bind.bind, Except.bind]
  · intro results e invoke hinv
    simp [queryMain, Bind.bind, Except.bind, hinv]

/-- Witness for C7 at concrete inputs: a failing search and a failing
chat model both produce the generic error response. -/
theorem query_errors_caught_witness :
    queryMain (fun _ => 0) true (Except.error ()) (fun _ => Except.error ()) [] =
      genericErrorResponse ∧
    queryMain (fun _ => 0) true (Except.ok []) (fun _ => Except.error ()) [] =
      genericErrorResponse :=
  ⟨(query_errors_caught (fun _ => 0) []).1 () _,
   (query_errors_caught (fun _ => 0) []).2 [] () _ (fun _ => rfl)⟩

-- ─────────────────────────────────────────────────────────────────────────
-- C6 : the source-label rule
-- ─────────────────────────────────────────────────────────────────────────

/-- C6 (counterexample): the claim fails for the second implementation of
the label rule: `general_kb_query.get_source_from_metadata` on an empty
mapping returns `"Unknown source"` (capital U), not the claimed literal
`"unknown source"` (and it does not trim whitespace either). -/
theorem gkb_source_label_differs :
    gkb_get_source_from_metadata [] ≠ str "unknown source" ∧
    gkb_get_source_from_metadata [("page_title", str " ")] ≠ str "unknown source" := by
  constructor
  · decide
  · decide

/-- C6 (amended): the claimed rule holds exactly for
`query_data.get_source_from_metadata` — trimmed `page_title` and
`subcategory` combine as `"{subcategory} - {page_title}"` when both are
non-empty, the single non-empty one is returned when only one is, and
`"unknown source"` when neither is.  (The `general_kb_query` copy
deviates per the counterexample.) -/
theorem source_label_rule (metadata : Metadata) :
    get_source_from_metadata metadata = sourceLabelSpec metadata := by
  unfold get_source_from_metadata sourceLabelSpec
  cases hpt : pyStrip (mdGet metadata "page_title") with
  | nil =>
    cases hsc : pyStrip (mdGet metadata "subcategory") with
    | nil => simp
    | cons c cs => simp
  | cons c cs =>
    cases hsc : pyStrip (mdGet metadata "subcategory") with
    | nil => simp
    | cons d ds => simp

-- ─────────────────────────────────────────────────────────────────────────
-- C8 : the appended sources section
-- ─────────────────────────────────────────────────────────────────────────

theorem addSource_nodup {l : List (List Char)} {x : List Char} (h : l.Nodup) :
    (addSource l x).Nodup := by
  by_cases hx : x ∈ l
  · simpa [addSource, hx] using h
  · simp [addSource, hx, List.nodup_append, h]

theorem gkbSources_nodup (l : List (Document × Score)) :
    ∀ acc : List (List Char), acc.Nodup → (gkbSources acc l).Nodup := by
  induction l with
  | nil => intro acc h; simpa [gkbSources] using h
  | cons dr rest ih =>
    intro acc h
    simp only [gkbSources]
    exact ih _ (addSource_nodup h)

theorem mem_gkbSources (l : List (Document × Score)) :
    ∀ (acc : List (List Char)) (x : List Char),
      x ∈ gkbSources acc l ↔
        x ∈ acc ∨ ∃ dr ∈ l, gkb_get_source_from_metadata dr.1.metadata = x := by
  induction l with
  | nil => intro acc x; simp [gkbSources]
  | cons dr rest ih =>
    intro acc x
    simp only [gkbSources]
    rw [ih, mem_addSource]
    constructor
    · rintro ((hx | rfl) | ⟨dr', hdr', hl⟩)
      · exact Or.inl hx
      · exact Or.inr ⟨dr, List.mem_cons_self dr rest, rfl⟩
      · exact Or.inr ⟨dr', List.mem_cons_of_mem dr hdr', hl⟩
    · rintro (hx | ⟨dr', hdr', hl⟩)
      · exact Or.inl (Or.inl hx)
      · rcases List.mem_cons.mp hdr' with rfl | hdr''
        · exact Or.inl (Or.inr hl.symm)
        · exact Or.inr ⟨dr', hdr'', hl⟩

/-- C8 (counterexample): with two kept results labelled `"B"` then
`"A"`, `general_kb_query` appends the sources in first-seen order
`- B`, `- A` — not the sorted order `- A`, `- B` the claim requires (and
it appends without any check that the reply lacks a sources section). -/
theorem gkb_sources_not_sorted :
    gkbMain (E := Unit)
        [(⟨str "x", [("page_title", str "B")]⟩, mkRat 9 10),
         (⟨str "y", [("page_title", str "A")]⟩, mkRat 9 10)]
        (fun _ => Except.ok (str "R")) (str "q") =
      Except.ok (str "Response: R\n\nSources:\n- B\n- A") ∧
    str "Response: R\n\nSources:\n- B\n- A" ≠
      str "Response: R\n\nSources:\n- A\n- B" := by
  constructor
  · rfl
  · decide

/-- C8 (amended): when at least one retrieval result meets the threshold,
`general_kb_query.main` unconditionally appends a sources section to the
reply, one `"- {label}"` line per deduplicated label of the kept results,
in first-seen (not sorted) order; `query_data.main` never modifies the
reply — it returns the stripped model reply with the sources as a
separate field. -/
theorem gkb_sources_section (results : List (Document × Score))
    (reply query_text : List Char)
    (h : results.filter (fun dr => decide (mkRat 7 10 ≤ dr.2)) ≠ []) :
    (∀ (E : Type),
      gkbMain (E := E) results (fun _ => Except.ok reply) query_text =
        Except.ok (str "Response: " ++ reply ++ str "\n\nSources:\n"
          ++ joinSep (str "\n")
              ((gkbSources [] (results.filter fun dr => decide (mkRat 7 10 ≤ dr.2))).map
                fun s => str "- " ++ s))) ∧
    (gkbSources [] (results.filter fun dr => decide (mkRat 7 10 ≤ dr.2))).Nodup ∧
    (∀ x, x ∈ gkbSources [] (results.filter fun dr => decide (mkRat 7 10 ≤ dr.2)) ↔
        ∃ dr ∈ results, mkRat 7 10 ≤ dr.2 ∧
          gkb_get_source_from_metadata dr.1.metadata = x) ∧
    (∀ (E : Type) (encLen : List Char → Nat) (history : List Turn),
        (queryMain (E := E) encLen true (Except.ok results)
            (fun _ => Except.ok reply) history).response = pyStrip reply) := by
  refine ⟨?_, ?_, ?_, ?_⟩
  · intro E
    have hne : (results.filter fun dr => decide (mkRat 7 10 ≤ dr.2)).isEmpty = false := by
      simpa [List.isEmpty_iff] using h
    simp [gkbMain, hne]
  · exact gkbSources_nodup _ [] List.nodup_nil
  · intro x
    rw [mem_gkbSources]
    simp only [List.not_mem_nil, false_or, List.mem_filter, decide_eq_true_eq]
    constructor
    · rintro ⟨dr, ⟨hdr, hs⟩, hl⟩
      exact ⟨dr, hdr, hs, hl⟩
    · rintro ⟨dr, hdr, hs, hl⟩
      exact ⟨dr, ⟨hdr, hs⟩, hl⟩
  · intro E encLen history
    simp [queryMain, Bind.bind, Except.bind, Pure.pure, Except.pure]

/-- Witness for the amended C8 at a concrete input. -/
theorem gkb_sources_section_witness :
    (gkbSources []
        ([((⟨str "x", [("page_title", str "B")]⟩ : Document), mkRat 9 10)].filter
          fun dr => decide (mkRat 7 10 ≤ dr.2))).Nodup :=
  (gkb_sources_section
    [(⟨str "x", [("page_title", str "B")]⟩, mkRat 9 10)]
    (str "R") (str "q") (by decide)).2.1

-- ─────────────────────────────────────────────────────────────────────────
-- C9 : stored history across failed queries
-- ─────────────────────────────────────────────────────────────────────────

/-- C9 (counterexample): because `query_data.main` converts collaborator
failures into a normal error response (see C7), a failed query still goes
through the handler's success path: with an empty stored history and the
query `"hi"` against a failing pipeline, the stored history afterwards is
*not* unchanged — it gains the user turn and the error reply. -/
theorem failed_query_extends_history :
    (handle_query (E := Unit)
        (fun _ h => Except.ok
          (queryMain (fun _ => 0) true (Except.error ()) (fun _ => Except.error ()) h))
        [] (str "hi")).2 ≠ ([] : List Turn) ∧
    (handle_query (E := Unit)
        (fun _ h => Except.ok
          (queryMain (fun _ => 0) true (Except.error ()) (fun _ => Except.error ()) h))
        [] (str "hi")).2 =
      [⟨"user", str "hi"⟩, ⟨"assistant", genericErrorResponse.response⟩] := by
  constructor
  · decide
  · rfl

/-- C9 (amended): the handler writes the stored history exactly once, at
the end of a request.  An empty query leaves it unchanged; an exception
propagating out of the query function leaves it unchanged (the write is
never reached); and when the query function returns — including the
error-response dict it produces on internal failure — the stored history
becomes the old history plus the user turn and the reply, in that order. -/
theorem handler_history_update {E : Type}
    (process : List Char → List Turn → Except E QueryResponse)
    (stored : List Turn) (rawQuery : List Char) :
    (pyStrip rawQuery = [] →
      handle_query process stored rawQuery = (HandleOutcome.badRequest, stored)) ∧
    (∀ e, process (pyStrip rawQuery) (stored ++ [⟨"user", pyStrip rawQuery⟩]) =
        Except.error e →
      (handle_query process stored rawQuery).2 = stored) ∧
    (∀ rd, pyStrip rawQuery ≠ [] →
      process (pyStrip rawQuery) (stored ++ [⟨"user", pyStrip rawQuery⟩]) =
        Except.ok rd →
      (handle_query process stored rawQuery).2 =
        stored ++ [⟨"user", pyStrip rawQuery⟩, ⟨"assistant", rd.response⟩]) := by
  refine ⟨?_, ?_, ?_⟩
  · intro h
    simp [handle_query, h]
  · intro e he
    by_cases h : pyStrip rawQuery = []
    · simp [handle_query, h]
    · simp [handle_query, h, he]
  · intro rd h hok
    simp [handle_query, h, hok]

/-- Witness for the amended C9: the failed-query counterexample input,
run through the theorem's success-path case. -/
theorem handler_history_update_witness :
    (handle_query (E := Unit)
        (fun _ h => Except.ok
          (queryMain (fun _ => 0) true (Except.error ()) (fun _ => Except.error ()) h))
        [] (str "hi")).2 =
      [] ++ [⟨"user", pyStrip (str "hi")⟩,
        ⟨"assistant",
          (queryMain (E := Unit) (fun _ => 0) true (Except.error ())
            (fun _ => Except.error ())
            ([] ++ [⟨"user", pyStrip (str "hi")⟩])).response⟩] :=
  (handler_history_update _ [] (str "hi")).2.2 _ (by decide) rfl

-- ─────────────────────────────────────────────────────────────────────────
-- C5 : the no-frontmatter fallback of extract_metadata
-- ─────────────────────────────────────────────────────────────────────────

/-- C5 (claim): when the text does not begin with `---`, or has no later
closing `---`, `extract_metadata` returns an empty mapping and the
original text unchanged, for *every* parser — in particular the parsing
step (and any exception it could raise) is never reached. -/
theorem extract_metadata_fallback {E : Type}
    (parse : List Char → Except E Metadata) (content : List Char)
    (h : leadsWith (str "---") content = false ∨
      scanSub (str "---") (content.drop 3) = none) :
    extract_metadata parse content = Except.ok ([], content) := by
  unfold extract_metadata
  rcases h with h | h
  · simp [h]
  · by_cases hl : leadsWith (str "---") content
    · simp [hl, h]
    · simp [hl]

/-- Witness for C5: a document with no frontmatter, against a parser that
always fails, still yields the fallback. -/
theorem extract_metadata_fallback_witness :
    (leadsWith (str "---") (str "# Title\nbody") = false ∨
      scanSub (str "---") ((str "# Title\nbody").drop 3) = none) ∧
    extract_metadata (E := Unit) (fun _ => Except.error ()) (str "# Title\nbody") =
      Except.ok ([], str "# Title\nbody") :=
  ⟨Or.inl (by decide),
   extract_metadata_fallback (fun _ => Except.error ()) _ (Or.inl (by decide))⟩

-- ─────────────────────────────────────────────────────────────────────────
-- C10 : a heading on the first line is never recognized
-- ─────────────────────────────────────────────────────────────────────────

theorem headingSplitGo_no_match :
    ∀ (fuel : Nat) (cs : List Char), hasHeadingMatch cs = false →
      ∀ acc, headingSplitGo fuel acc cs = [acc.reverse ++ cs] := by
  intro fuel
  induction fuel with
  | zero => intro cs h acc; rfl
  | succ fuel ih =>
    intro cs h acc
    cases cs with
    | nil => simp [headingSplitGo]
    | cons c rest =>
      unfold hasHeadingMatch at h
      rw [Bool.or_eq_false_iff] at h
      obtain ⟨h1, h2⟩ := h
      cases hm : matchHeading (c :: rest) with
      | some m => rw [hm] at h1; simp at h1
      | none =>
        simp only [headingSplitGo, hm]
        rw [ih rest h2]
        simp

/-- C10 (claim): the heading pattern requires a preceding newline, so a
document whose text contains no `\n`-prefixed heading — in particular one
whose only heading is on the very first line — produces *zero* chunks:
the first-line heading, its section and any pre-heading text are silently
dropped. -/
theorem first_line_heading_dropped (content : List Char) (md : Metadata)
    (chunkSize : Nat) (h : hasHeadingMatch content = false) :
    split_documents chunkSize [⟨content, md⟩] = [] := by
  have hs : headingSections content = [content] := by
    unfold headingSections
    rw [headingSplitGo_no_match content.length content h []]
    simp
  simp [split_documents, hs, sectionPairs, pairUp]

/-- Witness for C10 at the claim's example input `"# A\n\nfoo"`. -/
theorem first_line_heading_dropped_witness :
    hasHeadingMatch (str "# A\n\nfoo") = false ∧
    split_documents 500 [⟨str "# A\n\nfoo", []⟩] = [] :=
  ⟨by decide, first_line_heading_dropped _ [] 500 (by decide)⟩

-- ─────────────────────────────────────────────────────────────────────────
-- C1 : code-fence atomicity is broken by the heading split
-- ─────────────────────────────────────────────────────────────────────────

/-- C1 (failing input): the heading regex `(\n#{1,6} .*)` is applied
*before* code blocks are protected, so a heading-like line inside a
balanced fenced block severs the fence.  On
`"\n# H\nx\n` ` ```\n# evil\ny\n``` ` `\n"` (whose fence count is 2, i.e.
balanced), `split_documents` emits the chunk `"# H\n\nx\n` ` ``` ` `"`
containing exactly one fence sequence — contradicting the invariant and
the code's own docstrings ("Keep code blocks intact"). -/
theorem heading_inside_fence_splits_block :
    Even (countFences (str "\n# H\nx\n\x60\x60\x60\n# evil\ny\n\x60\x60\x60\n")) ∧
    str "# H\n\nx\n\x60\x60\x60" ∈
      (split_documents 500
        [⟨str "\n# H\nx\n\x60\x60\x60\n# evil\ny\n\x60\x60\x60\n", []⟩]).map
        Document.page_content ∧
    ¬ Even (countFences (str "# H\n\nx\n\x60\x60\x60")) := by
  refine ⟨?_, ?_, ?_⟩
  · decide
  · decide
  · decide
example : leadsWith (str "---") (str "---x") = true := by decide
example : scanSub (str "---") (str "ab---c") = some 2 := by decide
example : str "\x60\x60\x60" = ['\x60', '\x60', '\x60'] := by decide
example :
    truncate_history (fun c => c.length) [.human (str "abc"), .ai (str "x")] 20 5 =
      [.human (str "abc"), .ai (str "x")] := by decide
example :
    truncate_history (fun c => c.length) [.human (str "abc"), .ai (str "x")] 14 5 =
      [.ai (str "x")] := by decide
example : get_source_from_metadata [] = str "unknown source" := by decide
example :
    get_source_from_metadata [("page_title", str " S3 "), ("subcategory", str "Storage")] =
      str "Storage - S3" := by decide
example : gkb_get_source_from_metadata [] = str "Unknown source" := by decide
example :
    contextOf [(⟨str "A", []⟩, mkRat 9 10), (⟨str "B", []⟩, mkRat 1 2)] =
      str "A" ++ sepStr := by decide
example :
    sourcesOf [(⟨str "A", [("page_title", str "B")]⟩, mkRat 9 10),
               (⟨str "C", [("page_title", str "A")]⟩, mkRat 3 4)] =
      [str "A", str "B"] := by decide
